import Mathlib

/-
Verification of the natural-language-to-JSONFlow compiler in
src/NaturalLanguageToJSONFlowParser.py.

The linguistic annotator (spaCy) is external: a sentence is modelled as its
raw text together with the token records the annotator returns for that text
(the code re-annotates each sentence's text inside every extractor; with a
deterministic annotator this yields the same tokens, so one token list per
sentence suffices).  The code reads exactly these token attributes:
token.text, token.lemma_, token.pos_, token.dep_, token.head.text,
token.head.pos_.

Python `dict.copy()` is a shallow copy.  Each step template in __init__ is an
outer dict whose single key points at a nested payload dict;
`self.step_templates[k].copy()` copies only the outer dict, so every step of
kind k ever appended to `steps` shares the one nested payload dict of the
template for k, and every field write goes through that shared dict.  The
state therefore carries one payload cell per step kind, the `steps` list
records kind tags (the outer dicts), and the document observed after `parse`
renders each tag by reading the final value of its kind's cell.  Each
extractor writes every field of its payload before returning, so "cell :=
returned payload" is exact.
-/

namespace TruthEngine

/-- Token record: the attributes of a spaCy token that the code reads.
`headText`/`headPos` are `token.head.text` / `token.head.pos_`. -/
structure Token where
  text : String
  lemma_ : String
  pos : String
  dep : String
  headText : String
  headPos : String
deriving DecidableEq

/-- A sentence: its raw surface text (used by the classifier's substring
tests) and the token records the annotator returns for that text. -/
structure Sentence where
  text : String
  tokens : List Token
deriving DecidableEq

/-- ASCII-faithful model of Python str.lower(). -/
def strLower (s : String) : String := String.mk (s.data.map Char.toLower)

/-- Does the second list start with the first? -/
def listStarts : List Char → List Char → Bool
  | [], _ => true
  | _ :: _, [] => false
  | p :: ps, c :: cs => p == c && listStarts ps cs

/-- Does `pat` occur as a contiguous run inside the second list? -/
def listHasSub (pat : List Char) : List Char → Bool
  | [] => listStarts pat []
  | c :: cs => listStarts pat (c :: cs) || listHasSub pat cs

/-- Python `pat in s` on strings: substring containment. -/
def containsSub (pat s : String) : Bool := listHasSub pat.data s.data

/-- Python str.capitalize(): first character uppercased, the rest
lowercased (ASCII-faithful). -/
def pyCapitalize (s : String) : String :=
  match s.data with
  | [] => ""
  | c :: cs => String.mk (c.toUpper :: cs.map Char.toLower)

/-- Python dict assignment d[k] = v on an insertion-ordered dict: if the key
is present its value is replaced in place, else the pair is appended. -/
def dictUpsert (k : String) (v : α) : List (String × α) → List (String × α)
  | [] => [(k, v)]
  | p :: rest => if p.1 == k then (k, v) :: rest else p :: dictUpsert k v rest

/-- Python `k in d` on a dict. -/
def dictContains (k : String) : List (String × α) → Bool
  | [] => false
  | p :: rest => p.1 == k || dictContains k rest

/-- Python d[k] lookup (none when the key is absent). -/
def dictGet (k : String) : List (String × α) → Option α
  | [] => none
  | p :: rest => if p.1 == k then some p.2 else dictGet k rest

/-- self.variable_types (line 55). -/
def variableTypes : List String := ["string", "int", "dict", "array", "bool"]

/-- self.comparison_ops (line 89). -/
def comparisonOps : List String := ["==", "!=", ">", "<", ">=", "<=", "in"]

/-- A value in a step: a literal token string, or a reference dict
{"get": name}. -/
inductive ValueRef where
  | lit (s : String)
  | get (s : String)
deriving DecidableEq

/-- One entry of schema["schema"]["inputs"] (lines 147-150). -/
structure InputDecl where
  type : String
  description : String
deriving DecidableEq

/-- The resolution rule inlined at lines 183, 209, 211 and 228:
{"get": v} if v in self.schema["schema"]["inputs"] else v. -/
def resolveRef (inputs : List (String × InputDecl)) (v : String) : ValueRef :=
  if dictContains v inputs then ValueRef.get v else ValueRef.lit v

/-- Payload of a set step (the nested dict of step_templates["set"]). -/
structure SetPayload where
  target : String
  value : ValueRef
deriving DecidableEq

/-- Payload of an assert step (nested dicts of step_templates["assert"]
flattened: condition.compare.left/op/right and message). -/
structure AssertPayload where
  left : ValueRef
  op : String
  right : ValueRef
  message : String
deriving DecidableEq

/-- Payload of a log step. -/
structure LogPayload where
  level : String
  message : List ValueRef
deriving DecidableEq

/-- A rendered step as it appears in the returned document. -/
inductive Step where
  | set (p : SetPayload)
  | assert (p : AssertPayload)
  | log (p : LogPayload)
  | forEach (source : String) (asVar : String) (body : List Step)

/-- Payload of a forEach step; `asVar` models the "as" key. -/
structure ForEachPayload where
  source : String
  asVar : String
  body : List Step

/-- Initial value stored into schema["context"][name] at line 166: the code
only ever stores "" (string), [] (array) or {} (anything else). -/
inductive CtxInit where
  | str (s : String)
  | emptyList
  | emptyDict
deriving DecidableEq

/-- Scan state of _parse_input (lines 134-136). -/
structure InScan where
  name : Option String
  ty : String
  desc : String

/-- One iteration of the token loop of _parse_input (lines 138-144). -/
def inputScanStep (st : InScan) (t : Token) : InScan :=
  if strLower t.text == "input" && t.headPos == "NOUN" then
    { st with name := some t.headText }
  else if variableTypes.contains (strLower t.text) then
    { st with ty := strLower t.text }
  else if t.dep == "attr" || t.dep == "dobj" then
    { st with desc := t.text }
  else st

/-- _parse_input (lines 131-150) reduced to the declaration it would store:
the guard `if input_name:` is Python truthiness (non-None and non-empty),
and `description or f"Input {input_name}"` picks the default when the
description is still the empty string. -/
def parseInputDecl (ts : List Token) : Option (String × InputDecl) :=
  match ts.foldl inputScanStep { name := none, ty := "string", desc := "" } with
  | { name := some n, ty := ty, desc := desc } =>
      if n != "" then
        some (n, { type := ty,
                   description := if desc == "" then "Input " ++ n else desc })
      else none
  | { name := none, .. } => none

/-- Scan state of _parse_context (lines 155-156). -/
structure CtxScan where
  name : Option String
  ty : String

/-- One iteration of the token loop of _parse_context (lines 158-162). -/
def ctxScanStep (st : CtxScan) (t : Token) : CtxScan :=
  if (strLower t.text == "variable" || strLower t.text == "context")
      && t.headPos == "NOUN" then
    { st with name := some t.headText }
  else if variableTypes.contains (strLower t.text) then
    { st with ty := strLower t.text }
  else st

/-- _parse_context (lines 152-166) reduced to the (name, type) it would
store; `if var_name:` is Python truthiness. -/
def parseContextDecl (ts : List Token) : Option (String × String) :=
  match ts.foldl ctxScanStep { name := none, ty := "string" } with
  | { name := some n, ty := ty } => if n != "" then some (n, ty) else none
  | { name := none, .. } => none

/-- Scan state of _parse_set_step (lines 171-172). -/
structure SetScan where
  target : Option String
  value : Option String

/-- One iteration of the token loop of _parse_set_step (lines 174-178). -/
def setScanStep (st : SetScan) (t : Token) : SetScan :=
  if (strLower t.text == "set" || strLower t.text == "assign")
      && t.headPos == "NOUN" then
    { st with target := some t.headText }
  else if t.dep == "attr" || t.dep == "dobj" then
    { st with value := some t.text }
  else st

/-- _parse_set_step (lines 168-185); `if target and value:` is Python
truthiness on both strings. -/
def parseSetStep (inputs : List (String × InputDecl)) (ts : List Token) :
    Option SetPayload :=
  match ts.foldl setScanStep { target := none, value := none } with
  | { target := some tg, value := some v } =>
      if tg != "" && v != "" then
        some { target := tg, value := resolveRef inputs v }
      else none
  | _ => none

/-- Scan state of _parse_assert_step (lines 190-193): condition starts as
None, so the nominal-subject guard `token.head.text == condition` can only
succeed after some cue token has set condition. -/
structure AssertScan where
  condition : Option String
  left : Option String
  op : Option String
  right : Option String

/-- One iteration of the token loop of _parse_assert_step (lines 197-205). -/
def assertScanStep (st : AssertScan) (t : Token) : AssertScan :=
  if strLower t.text == "if" || strLower t.text == "check" then
    { st with condition := some t.headText }
  else if t.dep == "nsubj" && some t.headText == st.condition then
    { st with left := some t.text }
  else if comparisonOps.contains t.text then
    { st with op := some t.text }
  else if t.dep == "attr" || t.dep == "dobj" then
    { st with right := some t.text }
  else st

/-- _parse_assert_step (lines 187-214); `if left and op and right:` is
Python truthiness, and the message is the f-string of line 212 built from
the raw surface forms. -/
def parseAssertStep (inputs : List (String × InputDecl)) (ts : List Token) :
    Option AssertPayload :=
  match ts.foldl assertScanStep
      { condition := none, left := none, op := none, right := none } with
  | { condition := _, left := some l, op := some o, right := some r } =>
      if l != "" && o != "" && r != "" then
        some { left := resolveRef inputs l, op := o,
               right := resolveRef inputs r,
               message := l ++ " " ++ o ++ " " ++ r ++ " check failed" }
      else none
  | _ => none

/-- _parse_log_step (lines 216-232): collect the text of every token whose
dependency label is nsubj/dobj/attr, in order; `if message_parts:` is
truthiness of the list (non-empty). -/
def parseLogStep (inputs : List (String × InputDecl)) (ts : List Token) :
    Option LogPayload :=
  match (ts.filter
      (fun t => t.dep == "nsubj" || t.dep == "dobj" || t.dep == "attr")).map
      Token.text with
  | [] => none
  | part :: parts =>
      some { level := "info",
             message := (part :: parts).map (resolveRef inputs) }

/-- Scan state of _parse_foreach_step (lines 237-238). -/
structure EachScan where
  source : Option String
  iter : Option String

/-- One iteration of the token loop of _parse_foreach_step
(lines 240-244). -/
def forEachScanStep (st : EachScan) (t : Token) : EachScan :=
  if (strLower t.text == "each" || strLower t.text == "loop")
      && t.headPos == "NOUN" then
    { st with source := some t.headText }
  else if t.dep == "nsubj"
      && (strLower t.headText == "each" || strLower t.headText == "loop") then
    { st with iter := some t.text }
  else st

/-- _parse_foreach_step (lines 234-252); the body is assigned the empty
list at line 250. -/
def parseForEachStep (ts : List Token) : Option ForEachPayload :=
  match ts.foldl forEachScanStep { source := none, iter := none } with
  | { source := some s, iter := some i } =>
      if s != "" && i != "" then
        some { source := s, asVar := i, body := [] }
      else none
  | _ => none

/-- Which extractor a sentence is dispatched to. -/
inductive Route where
  | inputR | setR | assertR | logR | forEachR | contextR | skip
deriving DecidableEq

/-- The if/elif chain of _process_sentences (lines 110-128): case-sensitive
is lowered first, then substring containment, first match wins. -/
def routeOf (s : Sentence) : Route :=
  let lw := strLower s.text
  if containsSub "input" lw then Route.inputR
  else if containsSub "set" lw || containsSub "assign" lw then Route.setR
  else if containsSub "if" lw || containsSub "check" lw then Route.assertR
  else if containsSub "log" lw || containsSub "print" lw then Route.logR
  else if containsSub "for each" lw || containsSub "loop" lw then Route.forEachR
  else if containsSub "context" lw || containsSub "variable" lw then Route.contextR
  else Route.skip

/-- Tag of an appended step: the outer dict of one template; via the shallow
copy it is a pointer to the shared payload cell of its kind. -/
inductive StepKind where
  | set | assert | log | forEach
deriving DecidableEq

/-- The mutable state of a JSONFlowParser instance: the schema under
construction (__init__ lines 46-54) plus the four shared template payload
cells (__init__ lines 56-88); see the header comment for why the cells
model `step_templates` and `steps` stores kind tags. -/
structure ParserState where
  functionName : String
  inputs : List (String × InputDecl)
  contextSpec : List (String × String)
  context : List (String × CtxInit)
  steps : List StepKind
  cellSet : SetPayload
  cellAssert : AssertPayload
  cellLog : LogPayload
  cellForEach : ForEachPayload

/-- The state __init__ builds (lines 45-89). -/
def initState : ParserState :=
  { functionName := ""
    inputs := []
    contextSpec := []
    context := []
    steps := []
    cellSet := { target := "", value := ValueRef.lit "" }
    cellAssert := { left := ValueRef.lit "", op := "",
                    right := ValueRef.lit "", message := "" }
    cellLog := { level := "info", message := [] }
    cellForEach := { source := "", asVar := "", body := [] } }

/-- One iteration of the sentence loop of _process_sentences
(lines 109-129), including the extractors' writes to the schema and to the
shared template cells. -/
def processSentence (st : ParserState) (s : Sentence) : ParserState :=
  match routeOf s with
  | Route.inputR =>
      match parseInputDecl s.tokens with
      | some (n, d) => { st with inputs := dictUpsert n d st.inputs }
      | none => st
  | Route.setR =>
      match parseSetStep st.inputs s.tokens with
      | some p => { st with cellSet := p, steps := st.steps ++ [StepKind.set] }
      | none => st
  | Route.assertR =>
      match parseAssertStep st.inputs s.tokens with
      | some p =>
          { st with cellAssert := p, steps := st.steps ++ [StepKind.assert] }
      | none => st
  | Route.logR =>
      match parseLogStep st.inputs s.tokens with
      | some p => { st with cellLog := p, steps := st.steps ++ [StepKind.log] }
      | none => st
  | Route.forEachR =>
      match parseForEachStep s.tokens with
      | some p =>
          { st with cellForEach := p, steps := st.steps ++ [StepKind.forEach] }
      | none => st
  | Route.contextR =>
      match parseContextDecl s.tokens with
      | some (n, ty) =>
          { st with
            contextSpec := dictUpsert n ty st.contextSpec
            context := dictUpsert n
              (if ty == "string" then CtxInit.str ""
               else if ty == "array" then CtxInit.emptyList
               else CtxInit.emptyDict) st.context }
      | none => st
  | Route.skip => st

/-- Is this token a verb whose lemma names a workflow (line 102)? -/
def isWorkflowVerb (t : Token) : Bool :=
  t.pos == "VERB" && ["create", "build", "define", "generate"].contains t.lemma_

/-- _generate_function_name (lines 98-104): nested loops with an early
return become a per-sentence search. -/
def generateFunctionName : List Sentence → String
  | [] => "DefaultWorkflow"
  | s :: rest =>
      match s.tokens.find? isWorkflowVerb with
      | some t => pyCapitalize t.text ++ "Workflow"
      | none => generateFunctionName rest

/-- parse (lines 91-96): set schema["function"] from the whole document,
then process the sentences in order; the parser's own schema is returned
(the state is the schema). -/
def parse (st : ParserState) (doc : List Sentence) : ParserState :=
  doc.foldl processSentence { st with functionName := generateFunctionName doc }

/-- The step list as observed in the returned schema: each appended tag is a
pointer to its kind's shared template cell, so it renders the cell's final
value. -/
def renderSteps (st : ParserState) : List Step :=
  st.steps.map (fun k =>
    match k with
    | StepKind.set => Step.set st.cellSet
    | StepKind.assert => Step.assert st.cellAssert
    | StepKind.log => Step.log st.cellLog
    | StepKind.forEach =>
        Step.forEach st.cellForEach.source st.cellForEach.asVar
          st.cellForEach.body)

/-- The schema document as observed by the caller after parse returns. -/
structure FlowSchema where
  functionName : String
  schemaInputs : List (String × InputDecl)
  schemaContext : List (String × String)
  context : List (String × CtxInit)
  steps : List Step

/-- Read the returned schema dict out of the parser state. -/
def renderSchema (st : ParserState) : FlowSchema :=
  { functionName := st.functionName
    schemaInputs := st.inputs
    schemaContext := st.contextSpec
    context := st.context
    steps := renderSteps st }

/-- The artifact envelope of generate_jsonflow_from_text (lines 254-263). -/
structure Envelope where
  artifactId : String
  title : String
  contentType : String
  schema : FlowSchema

/-- generate_jsonflow_from_text (lines 254-263): a fresh parser per call;
the random uuid.uuid4() string is passed in as a parameter (external
randomness). -/
def generateJsonflowFromText (uuid : String) (doc : List Sentence) :
    Envelope :=
  { artifactId := uuid
    title := "GeneratedJSONFlowSchema.json"
    contentType := "application/json"
    schema := renderSchema (parse initState doc) }

/-- Σ sentence routed to the input extractor that declares the name n. -/
def declaresInputName (s : Sentence) (n : String) : Bool :=
  routeOf s == Route.inputR &&
    match parseInputDecl s.tokens with
    | some (m, _) => m == n
    | none => false

/-- All tokens of a document in document order (the flattened nested loop of
_generate_function_name). -/
def allTokens : List Sentence → List Token
  | [] => []
  | s :: rest => s.tokens ++ allTokens rest

/-- The function name the way the spec words it: the first verb in document
order, across all sentences, whose lemma is create/build/define/generate,
capitalized and suffixed with "Workflow"; else "DefaultWorkflow". -/
def specFunctionName (doc : List Sentence) : String :=
  match (allTokens doc).find? isWorkflowVerb with
  | some t => pyCapitalize t.text ++ "Workflow"
  | none => "DefaultWorkflow"

/-- The classifier the way the spec words it: a fixed, ordered priority list
of cue phrases, first match wins. -/
def cueRules : List (List String × Route) :=
  [(["input"], Route.inputR),
   (["set", "assign"], Route.setR),
   (["if", "check"], Route.assertR),
   (["log", "print"], Route.logR),
   (["for each", "loop"], Route.forEachR),
   (["context", "variable"], Route.contextR)]

/-- First rule of the priority list one of whose cues occurs in the lowered
sentence text; skip when none matches. -/
def firstCueRoute (lw : String) : List (List String × Route) → Route
  | [] => Route.skip
  | r :: rest =>
      if r.1.any (fun c => containsSub c lw) then r.2 else firstCueRoute lw rest

/-- Spec-style router over the priority list. -/
def priorityRoute (s : Sentence) : Route :=
  firstCueRoute (strLower s.text) cueRules

/-- Does a rendered step have an empty forEach body (vacuously true for the
other kinds)? -/
def stepBodyEmpty : Step → Bool
  | Step.forEach _ _ body => body.isEmpty
  | _ => true

/-- Is a value reference non-empty (its literal or referenced name is not the
empty string)? -/
def refNonEmpty : ValueRef → Bool
  | ValueRef.lit s => s != ""
  | ValueRef.get s => s != ""

/-- Every key of the first dict is a key of the second. -/
def keysIncluded (d1 d2 : List (String × α)) : Bool :=
  d1.all (fun p => dictContains p.1 d2)

theorem dictContains_upsert (k n : String) (v : α) (d : List (String × α)) :
    dictContains n (dictUpsert k v d) = ((k == n) || dictContains n d) := by
  induction d with
  | nil => simp [dictUpsert, dictContains]
  | cons p rest ih =>
      unfold dictUpsert
      by_cases h : p.1 == k
      · have hpk : p.1 = k := by simpa using h
        rw [if_pos h]
        simp only [dictContains, hpk]
        cases hkn : (k == n) <;> simp [hkn]
      · rw [if_neg h]
        simp only [dictContains, ih]
        cases hpn : (p.1 == n) <;> cases hkn : (k == n) <;> simp [hpn, hkn]

theorem dictGet_upsert_self (n : String) (v : α) (d : List (String × α)) :
    dictGet n (dictUpsert n v d) = some v := by
  induction d with
  | nil => simp [dictUpsert, dictGet]
  | cons p rest ih =>
      unfold dictUpsert
      by_cases h : p.1 == n
      · rw [if_pos h]
        simp [dictGet]
      · rw [if_neg h]
        simpa [dictGet, h] using ih

theorem processSentence_functionName (st : ParserState) (s : Sentence) :
    (processSentence st s).functionName = st.functionName := by
  unfold processSentence
  split <;> first | rfl | (split <;> rfl)

theorem parseForEachStep_body (ts : List Token) (p : ForEachPayload)
    (hp : parseForEachStep ts = some p) : p.body = [] := by
  unfold parseForEachStep at hp
  split at hp
  · split at hp
    · injection hp with h2
      subst h2
      rfl
    · simp at hp
  · simp at hp

theorem processSentence_cellForEach_body (st : ParserState) (s : Sentence)
    (h : st.cellForEach.body = []) :
    (processSentence st s).cellForEach.body = [] := by
  unfold processSentence
  split
  · split
    · exact h
    · exact h
  · split
    · exact h
    · exact h
  · split
    · exact h
    · exact h
  · split
    · exact h
    · exact h
  · split
    · next p hp => exact parseForEachStep_body _ p hp
    · exact h
  · split
    · exact h
    · exact h
  · exact h

theorem dictContains_processSentence_inputs (st : ParserState) (s : Sentence)
    (n : String) :
    dictContains n (processSentence st s).inputs
      = (dictContains n st.inputs || declaresInputName s n) := by
  unfold processSentence declaresInputName
  split
  all_goals rename_i hr
  · rw [hr]
    split
    · simp [dictContains_upsert, Bool.or_comm]
    · simp
  all_goals rw [hr]
  · split <;> simp
  · split <;> simp
  · split <;> simp
  · split <;> simp
  · split <;> simp
  · simp

theorem dictContains_foldl_inputs (st : ParserState) (pre : List Sentence)
    (n : String) :
    dictContains n (pre.foldl processSentence st).inputs
      = (dictContains n st.inputs || pre.any (fun s => declaresInputName s n)) := by
  induction pre generalizing st with
  | nil => simp
  | cons s rest ih =>
      simp only [List.foldl_cons, List.any_cons]
      rw [ih, dictContains_processSentence_inputs]
      cases dictContains n st.inputs <;>
        cases declaresInputName s n <;> simp

theorem foldl_functionName (doc : List Sentence) (st : ParserState) :
    (doc.foldl processSentence st).functionName = st.functionName := by
  induction doc generalizing st with
  | nil => rfl
  | cons s rest ih =>
      simp only [List.foldl_cons]
      rw [ih, processSentence_functionName]

theorem foldl_cellForEach_body (doc : List Sentence) (st : ParserState)
    (h : st.cellForEach.body = []) :
    (doc.foldl processSentence st).cellForEach.body = [] := by
  induction doc generalizing st with
  | nil => exact h
  | cons s rest ih =>
      simp only [List.foldl_cons]
      exact ih _ (processSentence_cellForEach_body st s h)

theorem processSentence_steps (st : ParserState) (s : Sentence) :
    ∃ l, (processSentence st s).steps = st.steps ++ l := by
  unfold processSentence
  split
  · split
    · exact ⟨[], by simp⟩
    · exact ⟨[], by simp⟩
  · split
    · exact ⟨[StepKind.set], rfl⟩
    · exact ⟨[], by simp⟩
  · split
    · exact ⟨[StepKind.assert], rfl⟩
    · exact ⟨[], by simp⟩
  · split
    · exact ⟨[StepKind.log], rfl⟩
    · exact ⟨[], by simp⟩
  · split
    · exact ⟨[StepKind.forEach], rfl⟩
    · exact ⟨[], by simp⟩
  · split
    · exact ⟨[], by simp⟩
    · exact ⟨[], by simp⟩
  · exact ⟨[], by simp⟩

theorem foldl_steps (doc : List Sentence) (st : ParserState) :
    ∃ l, (doc.foldl processSentence st).steps = st.steps ++ l := by
  induction doc generalizing st with
  | nil => exact ⟨[], by simp⟩
  | cons s rest ih =>
      simp only [List.foldl_cons]
      obtain ⟨l1, h1⟩ := processSentence_steps st s
      obtain ⟨l2, h2⟩ := ih (processSentence st s)
      exact ⟨l1 ++ l2, by rw [h2, h1, List.append_assoc]⟩

theorem listFindAppend (p : Token → Bool) (l1 l2 : List Token) :
    (l1 ++ l2).find? p
      = match l1.find? p with
        | some t => some t
        | none => l2.find? p := by
  induction l1 with
  | nil => simp
  | cons a rest ih =>
      simp only [List.cons_append, List.find?]
      cases hp : p a <;> simp [hp, ih]

theorem generateFunctionName_eq_spec (doc : List Sentence) :
    generateFunctionName doc = specFunctionName doc := by
  induction doc with
  | nil => rfl
  | cons s rest ih =>
      unfold generateFunctionName specFunctionName allTokens
      rw [listFindAppend]
      cases h : s.tokens.find? isWorkflowVerb with
      | some t => simp
      | none =>
          simp only []
          rw [ih]
          rfl

theorem routeOf_eq_priorityRoute (s : Sentence) :
    routeOf s = priorityRoute s := by
  unfold routeOf priorityRoute cueRules
  simp only [firstCueRoute, List.any_cons, List.any_nil, Bool.or_false]

/-- Cue tokens of the assert extractor (line 198). -/
def isCueTok (t : Token) : Bool :=
  strLower t.text == "if" || strLower t.text == "check"

/-- No nominal-subject token occurs at or after the first cue token: every
nsubj token of the sentence precedes every cue token. -/
def noNsubjAfterCue : List Token → Bool
  | [] => true
  | t :: rest =>
      if isCueTok t then rest.all (fun u => u.dep != "nsubj")
      else noNsubjAfterCue rest

theorem assertScanStep_cue (st : AssertScan) (t : Token)
    (hcue : isCueTok t = true) :
    assertScanStep st t = { st with condition := some t.headText } := by
  unfold isCueTok at hcue
  unfold assertScanStep
  rw [if_pos hcue]

theorem assertScanStep_left_of_not_nsubj (st : AssertScan) (t : Token)
    (hdep : (t.dep == "nsubj") = false) :
    (assertScanStep st t).left = st.left := by
  unfold assertScanStep
  split
  · rfl
  · split
    · next h2 => rw [hdep] at h2; simp at h2
    · split
      · rfl
      · split
        · rfl
        · rfl

theorem assertScanStep_nocue_nocond (st : AssertScan) (t : Token)
    (hcue : isCueTok t = false) (hc : st.condition = none)
    (hl : st.left = none) :
    (assertScanStep st t).condition = none
      ∧ (assertScanStep st t).left = none := by
  unfold isCueTok at hcue
  unfold assertScanStep
  split
  · next h1 => rw [hcue] at h1; simp at h1
  · split
    · next h2 => rw [hc] at h2; simp at h2
    · split
      · exact ⟨hc, hl⟩
      · split
        · exact ⟨hc, hl⟩
        · exact ⟨hc, hl⟩

theorem foldAssert_left_none_of_all (ts : List Token) (st : AssertScan)
    (hall : ts.all (fun u => u.dep != "nsubj") = true)
    (hl : st.left = none) :
    (ts.foldl assertScanStep st).left = none := by
  induction ts generalizing st with
  | nil => exact hl
  | cons t rest ih =>
      simp only [List.all_cons, Bool.and_eq_true] at hall
      have hdep : (t.dep == "nsubj") = false := by
        have := hall.1
        simp [bne] at this
        simp [this]
      simp only [List.foldl_cons]
      exact ih _ hall.2 ((assertScanStep_left_of_not_nsubj st t hdep).trans hl)

theorem foldAssert_left_none (ts : List Token) (st : AssertScan)
    (hno : noNsubjAfterCue ts = true) (hc : st.condition = none)
    (hl : st.left = none) :
    (ts.foldl assertScanStep st).left = none := by
  induction ts generalizing st with
  | nil => exact hl
  | cons t rest ih =>
      unfold noNsubjAfterCue at hno
      by_cases hcue : isCueTok t = true
      · rw [if_pos hcue] at hno
        simp only [List.foldl_cons, assertScanStep_cue st t hcue]
        exact foldAssert_left_none_of_all rest _ hno hl
      · have hcue2 : isCueTok t = false := by
          cases h : isCueTok t
          · rfl
          · exact absurd h hcue
        rw [if_neg (by simp [hcue2])] at hno
        obtain ⟨hc2, hl2⟩ := assertScanStep_nocue_nocond st t hcue2 hc hl
        simp only [List.foldl_cons]
        exact ih _ hno hc2 hl2

theorem parseAssertStep_none_of_noNsubjAfterCue
    (inputs : List (String × InputDecl)) (ts : List Token)
    (hno : noNsubjAfterCue ts = true) :
    parseAssertStep inputs ts = none := by
  have hl : (ts.foldl assertScanStep
      { condition := none, left := none, op := none, right := none }).left
        = none :=
    foldAssert_left_none ts _ hno rfl rfl
  unfold parseAssertStep
  split
  · next heq => rw [heq] at hl; simp at hl
  · rfl

theorem dictContains_of_mem (p : String × α) (d : List (String × α))
    (hp : p ∈ d) : dictContains p.1 d = true := by
  induction d with
  | nil => cases hp
  | cons q rest ih =>
      rcases List.mem_cons.mp hp with h | h
      · subst h; simp [dictContains]
      · simp [dictContains, ih h]

theorem processSentence_contextSpec_mono (st : ParserState) (s : Sentence)
    (k : String) (h : dictContains k st.contextSpec = true) :
    dictContains k (processSentence st s).contextSpec = true := by
  unfold processSentence
  split
  · split
    · exact h
    · exact h
  · split
    · exact h
    · exact h
  · split
    · exact h
    · exact h
  · split
    · exact h
    · exact h
  · split
    · exact h
    · exact h
  · split
    · simp [dictContains_upsert, h]
    · exact h
  · exact h

theorem processSentence_context_mono (st : ParserState) (s : Sentence)
    (k : String) (h : dictContains k st.context = true) :
    dictContains k (processSentence st s).context = true := by
  unfold processSentence
  split
  · split
    · exact h
    · exact h
  · split
    · exact h
    · exact h
  · split
    · exact h
    · exact h
  · split
    · exact h
    · exact h
  · split
    · exact h
    · exact h
  · split
    · simp [dictContains_upsert, h]
    · exact h
  · exact h

theorem foldl_contextSpec_mono (doc : List Sentence) (st : ParserState)
    (k : String) (h : dictContains k st.contextSpec = true) :
    dictContains k (doc.foldl processSentence st).contextSpec = true := by
  induction doc generalizing st with
  | nil => exact h
  | cons s rest ih =>
      simp only [List.foldl_cons]
      exact ih _ (processSentence_contextSpec_mono st s k h)

theorem foldl_context_mono (doc : List Sentence) (st : ParserState)
    (k : String) (h : dictContains k st.context = true) :
    dictContains k (doc.foldl processSentence st).context = true := by
  induction doc generalizing st with
  | nil => exact h
  | cons s rest ih =>
      simp only [List.foldl_cons]
      exact ih _ (processSentence_context_mono st s k h)

theorem refNonEmpty_resolveRef (inputs : List (String × InputDecl))
    (v : String) (h : v ≠ "") : refNonEmpty (resolveRef inputs v) = true := by
  unfold resolveRef
  split
  · simp [refNonEmpty, h]
  · simp [refNonEmpty, h]

theorem assertScan_ordered (t1 t2 t3 t4 : Token)
    (h1 : isCueTok t1 = true)
    (hd2 : t2.dep = "nsubj") (hh2 : t2.headText = t1.headText)
    (hc2 : isCueTok t2 = false)
    (hop3 : comparisonOps.contains t3.text = true)
    (hc3 : isCueTok t3 = false) (hd3 : (t3.dep == "nsubj") = false)
    (hd4 : t4.dep = "attr" ∨ t4.dep = "dobj")
    (hc4 : isCueTok t4 = false) (hnd4 : (t4.dep == "nsubj") = false)
    (hop4 : comparisonOps.contains t4.text = false) :
    [t1, t2, t3, t4].foldl assertScanStep
        { condition := none, left := none, op := none, right := none }
      = { condition := some t1.headText, left := some t2.text,
          op := some t3.text, right := some t4.text } := by
  simp only [List.foldl_cons, List.foldl_nil]
  rw [assertScanStep_cue _ t1 h1]
  have e2 : assertScanStep
      { condition := some t1.headText, left := none, op := none, right := none }
        t2
      = { condition := some t1.headText, left := some t2.text, op := none,
          right := none } := by
    unfold isCueTok at hc2
    unfold assertScanStep
    rw [if_neg (by simp [hc2]), if_pos (by simp [hd2, hh2])]
  rw [e2]
  have e3 : assertScanStep
      { condition := some t1.headText, left := some t2.text, op := none,
        right := none } t3
      = { condition := some t1.headText, left := some t2.text,
          op := some t3.text, right := none } := by
    unfold isCueTok at hc3
    unfold assertScanStep
    rw [if_neg (by rw [hc3]; simp), if_neg (by rw [hd3]; simp), if_pos hop3]
  rw [e3]
  unfold isCueTok at hc4
  unfold assertScanStep
  rw [if_neg (by rw [hc4]; simp), if_neg (by rw [hnd4]; simp),
      if_neg (by rw [hop4]; simp),
      if_pos (by rcases hd4 with h | h <;> simp [h])]

theorem comparisonOps_mem_ne_empty (o : String)
    (h : comparisonOps.contains o = true) : o ≠ "" := by
  intro he
  rw [he] at h
  exact absurd h (by decide)

theorem parseAssertStep_ordered (inputs : List (String × InputDecl))
    (t1 t2 t3 t4 : Token)
    (h1 : isCueTok t1 = true)
    (hd2 : t2.dep = "nsubj") (hh2 : t2.headText = t1.headText)
    (hc2 : isCueTok t2 = false) (hne2 : t2.text ≠ "")
    (hop3 : comparisonOps.contains t3.text = true)
    (hc3 : isCueTok t3 = false) (hd3 : (t3.dep == "nsubj") = false)
    (hd4 : t4.dep = "attr" ∨ t4.dep = "dobj")
    (hc4 : isCueTok t4 = false) (hnd4 : (t4.dep == "nsubj") = false)
    (hop4 : comparisonOps.contains t4.text = false) (hne4 : t4.text ≠ "") :
    parseAssertStep inputs [t1, t2, t3, t4]
      = some { left := resolveRef inputs t2.text, op := t3.text,
               right := resolveRef inputs t4.text,
               message := t2.text ++ " " ++ t3.text ++ " " ++ t4.text
                 ++ " check failed" } := by
  have hfold := assertScan_ordered t1 t2 t3 t4 h1 hd2 hh2 hc2 hop3 hc3 hd3
    hd4 hc4 hnd4 hop4
  have hne3 : t3.text ≠ "" := comparisonOps_mem_ne_empty t3.text hop3
  unfold parseAssertStep
  rw [hfold]
  simp only []
  rw [if_pos (by simp [hne2, hne3, hne4])]

theorem inputScanStep_ty (st : InScan) (t : Token)
    (h : variableTypes.contains (strLower t.text) = false) :
    (inputScanStep st t).ty = st.ty := by
  unfold inputScanStep
  split
  · rfl
  · split
    · next h2 => rw [h] at h2; simp at h2
    · split
      · rfl
      · rfl

theorem inputScan_ty (ts : List Token) (st : InScan)
    (hall : (ts.all (fun t => !(variableTypes.contains (strLower t.text)))) = true) :
    (ts.foldl inputScanStep st).ty = st.ty := by
  induction ts generalizing st with
  | nil => rfl
  | cons t rest ih =>
      simp only [List.all_cons, Bool.and_eq_true] at hall
      have ht : variableTypes.contains (strLower t.text) = false := by
        have := hall.1
        cases hc : variableTypes.contains (strLower t.text)
        · rfl
        · rw [hc] at this; simp at this
      simp only [List.foldl_cons]
      rw [ih _ hall.2, inputScanStep_ty st t ht]

theorem ctxScanStep_ty (st : CtxScan) (t : Token)
    (h : variableTypes.contains (strLower t.text) = false) :
    (ctxScanStep st t).ty = st.ty := by
  unfold ctxScanStep
  split
  · rfl
  · split
    · next h2 => rw [h] at h2; simp at h2
    · rfl

theorem ctxScan_ty (ts : List Token) (st : CtxScan)
    (hall : (ts.all (fun t => !(variableTypes.contains (strLower t.text)))) = true) :
    (ts.foldl ctxScanStep st).ty = st.ty := by
  induction ts generalizing st with
  | nil => rfl
  | cons t rest ih =>
      simp only [List.all_cons, Bool.and_eq_true] at hall
      have ht : variableTypes.contains (strLower t.text) = false := by
        have := hall.1
        cases hc : variableTypes.contains (strLower t.text)
        · rfl
        · rw [hc] at this; simp at this
      simp only [List.foldl_cons]
      rw [ih _ hall.2, ctxScanStep_ty st t ht]

/-- Helper to build a token record. -/
def mkTok (txt lem pos dep ht hp : String) : Token :=
  { text := txt, lemma_ := lem, pos := pos, dep := dep,
    headText := ht, headPos := hp }

/-- First set sentence of the shared-payload failing input. -/
def c1Sent1 : Sentence :=
  { text := "set x to alpha",
    tokens := [mkTok "set" "set" "VERB" "ROOT" "x" "NOUN",
               mkTok "alpha" "alpha" "NOUN" "dobj" "set" "VERB"] }

/-- Second set sentence of the shared-payload failing input. -/
def c1Sent2 : Sentence :=
  { text := "set y to beta",
    tokens := [mkTok "set" "set" "VERB" "ROOT" "y" "NOUN",
               mkTok "beta" "beta" "NOUN" "dobj" "set" "VERB"] }

/-- Nominal-subject token occurring before the cue token. -/
def c3TokNsubj : Token := mkTok "age" "age" "NOUN" "nsubj" "is" "AUX"

/-- Cue token of the assert counterexample sentence. -/
def c3TokCue : Token := mkTok "if" "if" "SCONJ" "mark" "is" "AUX"

/-- Comparison-operator token of the assert counterexample sentence. -/
def c3TokOp : Token := mkTok ">" ">" "SYM" "quantmod" "18" "NUM"

/-- Direct-object token of the assert counterexample sentence. -/
def c3TokRight : Token := mkTok "18" "18" "NUM" "dobj" "is" "AUX"

/-- Assert-routed sentence whose nominal subject precedes the cue. -/
def c3Sent : Sentence :=
  { text := "age if > 18",
    tokens := [c3TokNsubj, c3TokCue, c3TokOp, c3TokRight] }

/-- Inputs dict with one declared input. -/
def c4Inputs : List (String × InputDecl) :=
  [("username", { type := "string", description := "Input username" })]

/-- Set-sentence tokens referencing the declared input by name. -/
def c4SetToks : List Token :=
  [mkTok "set" "set" "VERB" "ROOT" "result" "NOUN",
   mkTok "username" "username" "NOUN" "dobj" "set" "VERB"]

/-- Input-declaration sentence for the order-dependency instance. -/
def c4InpSent : Sentence :=
  { text := "take an input called username",
    tokens := [mkTok "input" "input" "NOUN" "dobj" "username" "NOUN"] }

/-- Sentence matching no cue phrase. -/
def c5SkipSent : Sentence := { text := "hello world", tokens := [] }

/-- Sentence routed to the set extractor but yielding no structure. -/
def c5SetFailSent : Sentence := { text := "set in stone", tokens := [] }

/-- ForEach sentence producing one forEach step. -/
def c6Sent : Sentence :=
  { text := "for each item in perms",
    tokens := [mkTok "each" "each" "DET" "det" "perms" "NOUN",
               mkTok "item" "item" "NOUN" "nsubj" "each" "DET"] }

/-- Input-declaration tokens with no explicit type token. -/
def c7InpToks : List Token :=
  [mkTok "input" "input" "NOUN" "dobj" "username" "NOUN"]

/-- Context-declaration sentence with no explicit type token. -/
def c7CtxSent : Sentence :=
  { text := "declare a variable called result",
    tokens := [mkTok "variable" "variable" "NOUN" "dobj" "result" "NOUN"] }

/-- Context-declaration sentence with an explicit array type token. -/
def c7CtxArrSent : Sentence :=
  { text := "declare a variable called items as array",
    tokens := [mkTok "variable" "variable" "NOUN" "dobj" "items" "NOUN",
               mkTok "array" "array" "NOUN" "pobj" "as" "ADP"] }

/-- Set tokens producing a fully formed set step. -/
def c9SetToks : List Token :=
  [mkTok "set" "set" "VERB" "ROOT" "total" "NOUN",
   mkTok "amount" "amount" "NOUN" "dobj" "set" "VERB"]

/-- Assert tokens producing a fully formed assert step. -/
def c9AssertToks : List Token :=
  [mkTok "check" "check" "VERB" "ROOT" "is" "AUX",
   mkTok "age" "age" "NOUN" "nsubj" "is" "AUX",
   mkTok ">" ">" "SYM" "quantmod" "18" "NUM",
   mkTok "18" "18" "NUM" "dobj" "is" "AUX"]

/-- Log tokens producing a fully formed log step. -/
def c9LogToks : List Token :=
  [mkTok "message" "message" "NOUN" "dobj" "log" "VERB"]

/-- ForEach tokens producing a fully formed forEach step. -/
def c9EachToks : List Token :=
  [mkTok "each" "each" "DET" "det" "perms" "NOUN",
   mkTok "item" "item" "NOUN" "nsubj" "each" "DET"]

/-- C1: the claim says each appended step keeps exactly the fields its own
extractor wrote.  The code violates it: step_templates["set"].copy() is a
shallow copy, so both Set steps share the template's nested payload dict.
At the failing input (two set sentences), the first sentence's extractor
writes target "x" / value "alpha", yet after parse both rendered Set steps
carry the second sentence's fields ("y" / "beta"). -/
theorem C1_steps_mutated_after_append :
    parseSetStep [] c1Sent1.tokens
        = some { target := "x", value := ValueRef.lit "alpha" }
    ∧ renderSteps (parse initState [c1Sent1, c1Sent2])
        = [Step.set { target := "y", value := ValueRef.lit "beta" },
           Step.set { target := "y", value := ValueRef.lit "beta" }]
    ∧ ({ target := "y", value := ValueRef.lit "beta" } : SetPayload)
        ≠ { target := "x", value := ValueRef.lit "alpha" } :=
  ⟨rfl, rfl, by decide⟩

/-- C2: with a deterministic annotator, two top-level calls on the same text
yield identical schemas (function, input/context declarations, context and
steps) and identical title and contentType; only the artifact id (the uuid
argument) differs. -/
theorem C2_parse_deterministic_modulo_id :
    ∀ (doc : List Sentence) (u1 u2 : String),
      (generateJsonflowFromText u1 doc).schema
          = (generateJsonflowFromText u2 doc).schema
      ∧ (generateJsonflowFromText u1 doc).title
          = (generateJsonflowFromText u2 doc).title
      ∧ (generateJsonflowFromText u1 doc).contentType
          = (generateJsonflowFromText u2 doc).contentType
      ∧ (generateJsonflowFromText u1 doc).artifactId = u1 := by
  intro doc u1 u2
  exact ⟨rfl, rfl, rfl, rfl⟩

/-- C3 counterexample: the claim says the four assert components may occur
in any order, and in particular the cue need not precede the nominal
subject.  Here all four components occur in an assert-routed sentence (cue
token, nominal subject whose head matches the cue's head surface, exact
comparison-operator token, direct object), but the nominal subject precedes
the cue and no step is produced. -/
theorem C3_counterexample :
    routeOf c3Sent = Route.assertR
    ∧ c3Sent.tokens = [c3TokNsubj, c3TokCue, c3TokOp, c3TokRight]
    ∧ isCueTok c3TokCue = true
    ∧ c3TokNsubj.dep = "nsubj"
    ∧ c3TokNsubj.headText = c3TokCue.headText
    ∧ comparisonOps.contains c3TokOp.text = true
    ∧ c3TokRight.dep = "dobj"
    ∧ parseAssertStep [] c3Sent.tokens = none :=
  ⟨rfl, rfl, rfl, rfl, rfl, rfl, rfl, rfl⟩

/-- C3 (amended): a step is produced only when a cue token precedes the
nominal-subject token resolving left.  If every nominal-subject token
precedes every cue token, the sentence yields no step; conversely, with a
cue first and then a matching nominal subject, an exact comparison-operator
token and an attribute/direct-object token, the step is produced with left,
op, right and the synthesized message. -/
theorem C3_amended :
    (∀ (inputs : List (String × InputDecl)) (ts : List Token),
        noNsubjAfterCue ts = true → parseAssertStep inputs ts = none)
  ∧ (∀ (inputs : List (String × InputDecl)) (t1 t2 t3 t4 : Token),
        isCueTok t1 = true →
        t2.dep = "nsubj" → t2.headText = t1.headText → isCueTok t2 = false →
        t2.text ≠ "" →
        comparisonOps.contains t3.text = true → isCueTok t3 = false →
        (t3.dep == "nsubj") = false →
        (t4.dep = "attr" ∨ t4.dep = "dobj") → isCueTok t4 = false →
        (t4.dep == "nsubj") = false →
        comparisonOps.contains t4.text = false → t4.text ≠ "" →
        parseAssertStep inputs [t1, t2, t3, t4]
          = some { left := resolveRef inputs t2.text, op := t3.text,
                   right := resolveRef inputs t4.text,
                   message := t2.text ++ " " ++ t3.text ++ " " ++ t4.text
                     ++ " check failed" }) :=
  ⟨fun inputs ts h => parseAssertStep_none_of_noNsubjAfterCue inputs ts h,
   fun inputs t1 t2 t3 t4 h1 hd2 hh2 hc2 hne2 hop3 hc3 hd3 hd4 hc4 hnd4
       hop4 hne4 =>
     parseAssertStep_ordered inputs t1 t2 t3 t4 h1 hd2 hh2 hc2 hne2 hop3 hc3
       hd3 hd4 hc4 hnd4 hop4 hne4⟩

/-- C3 witness: the amended theorem applied at concrete token lists — the
same four components yield no step when the nominal subject comes first,
and yield a step when the cue comes first. -/
theorem C3_witness :
    parseAssertStep [] [c3TokNsubj, c3TokCue, c3TokOp, c3TokRight] = none
    ∧ parseAssertStep [] [c3TokCue, c3TokNsubj, c3TokOp, c3TokRight]
        = some { left := resolveRef [] c3TokNsubj.text, op := c3TokOp.text,
                 right := resolveRef [] c3TokRight.text,
                 message := c3TokNsubj.text ++ " " ++ c3TokOp.text ++ " "
                   ++ c3TokRight.text ++ " check failed" } :=
  ⟨C3_amended.1 [] [c3TokNsubj, c3TokCue, c3TokOp, c3TokRight] (by decide),
   C3_amended.2 [] c3TokCue c3TokNsubj c3TokOp c3TokRight (by decide) rfl rfl
     (by decide) (by decide) (by decide) (by decide) (by decide)
     (Or.inr rfl) (by decide) (by decide) (by decide) (by decide)⟩

/-- C4: a value name resolves to a get-reference exactly when it is already
a declared input at the moment its sentence is processed; the inputs dict
after processing a prefix of sentences contains exactly the initial names
plus those declared by input-routed sentences of that prefix, and each
extractor's value fields are produced by that resolution rule. -/
theorem C4_value_resolution :
    (∀ (st : ParserState) (pre : List Sentence) (n : String),
        dictContains n (pre.foldl processSentence st).inputs
          = (dictContains n st.inputs
              || pre.any (fun s => declaresInputName s n)))
  ∧ (∀ (inputs : List (String × InputDecl)) (v : String),
        dictContains v inputs = true → resolveRef inputs v = ValueRef.get v)
  ∧ (∀ (inputs : List (String × InputDecl)) (v : String),
        dictContains v inputs = false → resolveRef inputs v = ValueRef.lit v)
  ∧ (∀ (inputs : List (String × InputDecl)) (ts : List Token)
        (p : SetPayload), parseSetStep inputs ts = some p →
        ∃ v, p.value = resolveRef inputs v)
  ∧ (∀ (inputs : List (String × InputDecl)) (ts : List Token)
        (p : AssertPayload), parseAssertStep inputs ts = some p →
        (∃ v, p.left = resolveRef inputs v)
          ∧ (∃ v, p.right = resolveRef inputs v))
  ∧ (∀ (inputs : List (String × InputDecl)) (ts : List Token)
        (p : LogPayload), parseLogStep inputs ts = some p →
        ∀ m ∈ p.message, ∃ v, m = resolveRef inputs v) := by
  refine ⟨dictContains_foldl_inputs, ?_, ?_, ?_, ?_, ?_⟩
  · intro inputs v h
    unfold resolveRef
    rw [if_pos h]
  · intro inputs v h
    unfold resolveRef
    rw [if_neg (by rw [h]; simp)]
  · intro inputs ts p hp
    unfold parseSetStep at hp
    split at hp
    · split at hp
      · injection hp with h
        rw [← h]
        exact ⟨_, rfl⟩
      · simp at hp
    · simp at hp
  · intro inputs ts p hp
    unfold parseAssertStep at hp
    split at hp
    · split at hp
      · injection hp with h
        rw [← h]
        exact ⟨⟨_, rfl⟩, ⟨_, rfl⟩⟩
      · simp at hp
    · simp at hp
  · intro inputs ts p hp
    unfold parseLogStep at hp
    split at hp
    · simp at hp
    · injection hp with h
      have hmsg := congrArg LogPayload.message h
      intro m hm
      rw [← hmsg] at hm
      simp only [List.mem_map] at hm
      obtain ⟨v, hv, hmv⟩ := hm
      exact ⟨v, hmv.symm⟩

/-- C4 witness: the resolution rule applied at concrete inputs — a declared
name resolves to a reference, an undeclared name to a literal, and the set
extractor's value is the resolved reference. -/
theorem C4_witness :
    dictContains "username" ([c4InpSent].foldl processSentence initState).inputs
        = (dictContains "username" initState.inputs
            || [c4InpSent].any (fun s => declaresInputName s "username"))
    ∧ resolveRef c4Inputs "username" = ValueRef.get "username"
    ∧ resolveRef c4Inputs "stranger" = ValueRef.lit "stranger"
    ∧ (∃ v, SetPayload.value
          { target := "result", value := ValueRef.get "username" }
            = resolveRef c4Inputs v) :=
  ⟨C4_value_resolution.1 initState [c4InpSent] "username",
   C4_value_resolution.2.1 c4Inputs "username" rfl,
   C4_value_resolution.2.2.1 c4Inputs "stranger" rfl,
   C4_value_resolution.2.2.2.1 c4Inputs c4SetToks
     { target := "result", value := ValueRef.get "username" } rfl⟩

/-- C5: the classifier equals first-match dispatch over the fixed priority
list of cue phrases, and a sentence matching no cue, or whose dispatched
extractor finds no structure, leaves the parser state unchanged. -/
theorem C5_routing :
    (∀ s, routeOf s = priorityRoute s)
  ∧ (∀ (st : ParserState) s, routeOf s = Route.skip →
        processSentence st s = st)
  ∧ (∀ (st : ParserState) s, routeOf s = Route.inputR →
        parseInputDecl s.tokens = none → processSentence st s = st)
  ∧ (∀ (st : ParserState) s, routeOf s = Route.setR →
        parseSetStep st.inputs s.tokens = none → processSentence st s = st)
  ∧ (∀ (st : ParserState) s, routeOf s = Route.assertR →
        parseAssertStep st.inputs s.tokens = none → processSentence st s = st)
  ∧ (∀ (st : ParserState) s, routeOf s = Route.logR →
        parseLogStep st.inputs s.tokens = none → processSentence st s = st)
  ∧ (∀ (st : ParserState) s, routeOf s = Route.forEachR →
        parseForEachStep s.tokens = none → processSentence st s = st)
  ∧ (∀ (st : ParserState) s, routeOf s = Route.contextR →
        parseContextDecl s.tokens = none → processSentence st s = st) := by
  refine ⟨routeOf_eq_priorityRoute, ?_, ?_, ?_, ?_, ?_, ?_, ?_⟩
  · intro st s hr
    simp [processSentence, hr]
  · intro st s hr hx
    simp [processSentence, hr, hx]
  · intro st s hr hx
    simp [processSentence, hr, hx]
  · intro st s hr hx
    simp [processSentence, hr, hx]
  · intro st s hr hx
    simp [processSentence, hr, hx]
  · intro st s hr hx
    simp [processSentence, hr, hx]
  · intro st s hr hx
    simp [processSentence, hr, hx]

/-- C5 witness: the routing equivalence and the silent-skip behavior at
concrete sentences (no cue; set cue with no extractable structure). -/
theorem C5_witness :
    routeOf c5SkipSent = priorityRoute c5SkipSent
    ∧ processSentence initState c5SkipSent = initState
    ∧ processSentence initState c5SetFailSent = initState :=
  ⟨C5_routing.1 c5SkipSent,
   C5_routing.2.1 initState c5SkipSent rfl,
   C5_routing.2.2.2.1 initState c5SetFailSent rfl rfl⟩

/-- C6: in every schema returned by parse (from any state whose forEach
template cell has an empty body, as built by the constructor), every
rendered forEach step has an empty body, regardless of the following
sentences. -/
theorem C6_forEach_body_empty (st : ParserState) (doc : List Sentence)
    (h : st.cellForEach.body = []) :
    ((renderSteps (parse st doc)).all stepBodyEmpty) = true := by
  have hb : (parse st doc).cellForEach.body = [] :=
    foldl_cellForEach_body doc _ h
  unfold renderSteps
  rw [List.all_eq_true]
  intro x hx
  rw [List.mem_map] at hx
  obtain ⟨k, hk, hkx⟩ := hx
  subst hkx
  cases k
  · rfl
  · rfl
  · rfl
  · simp [stepBodyEmpty, hb]

/-- C6 witness: a document producing one forEach step, whose rendered body
is empty. -/
theorem C6_witness :
    (parse initState [c6Sent]).steps = [StepKind.forEach]
    ∧ ((renderSteps (parse initState [c6Sent])).all stepBodyEmpty) = true :=
  ⟨rfl, C6_forEach_body_empty initState [c6Sent] rfl⟩

/-- C7: a declared input or context variable with no explicit type token
gets type "string", and a context declaration initializes context[name] to
the empty string for "string", the empty list for "array", and the empty
dict for every other type. -/
theorem C7_defaults :
    (∀ (ts : List Token) (n : String) (d : InputDecl),
        (ts.all (fun t => !(variableTypes.contains (strLower t.text)))) = true →
        parseInputDecl ts = some (n, d) → d.type = "string")
  ∧ (∀ (ts : List Token) (n ty : String),
        (ts.all (fun t => !(variableTypes.contains (strLower t.text)))) = true →
        parseContextDecl ts = some (n, ty) → ty = "string")
  ∧ (∀ (st : ParserState) (s : Sentence) (n ty : String),
        routeOf s = Route.contextR → parseContextDecl s.tokens = some (n, ty) →
        dictGet n (processSentence st s).context
          = some (if ty == "string" then CtxInit.str ""
                  else if ty == "array" then CtxInit.emptyList
                  else CtxInit.emptyDict)) := by
  refine ⟨?_, ?_, ?_⟩
  · intro ts n d hall hp
    have hty := inputScan_ty ts { name := none, ty := "string", desc := "" } hall
    unfold parseInputDecl at hp
    split at hp
    · next heq =>
        rw [heq] at hty
        split at hp
        · injection hp with h
          injection h with h1 h2
          rw [← h2]
          exact hty
        · simp at hp
    · simp at hp
  · intro ts n ty hall hp
    have hty := ctxScan_ty ts { name := none, ty := "string" } hall
    unfold parseContextDecl at hp
    split at hp
    · next heq =>
        rw [heq] at hty
        split at hp
        · injection hp with h
          injection h with h1 h2
          rw [← h2]
          exact hty
        · simp at hp
    · simp at hp
  · intro st s n ty hr hd
    simp only [processSentence, hr, hd]
    exact dictGet_upsert_self n _ st.context

/-- C7 witness: the defaults at concrete declarations — an input with no
type token gets "string", a context variable with no type token gets
"string", and an array-typed context variable is initialized to the empty
list. -/
theorem C7_witness :
    InputDecl.type { type := "string", description := "Input username" }
        = "string"
    ∧ "string" = "string"
    ∧ dictGet "items" (processSentence initState c7CtxArrSent).context
        = some CtxInit.emptyList :=
  ⟨C7_defaults.1 c7InpToks "username"
     { type := "string", description := "Input username" } (by decide) rfl,
   C7_defaults.2.1 c7CtxSent.tokens "result" "string" (by decide) rfl,
   by simpa using C7_defaults.2.2 initState c7CtxArrSent "items" "array" rfl rfl⟩

/-- C8: the schema's function name is the capitalized surface form of the
first verb in document order whose lemma is create/build/define/generate,
suffixed with "Workflow"; with no such verb (including empty text) it is
"DefaultWorkflow". -/
theorem C8_function_name :
    (∀ (st : ParserState) (doc : List Sentence),
        (parse st doc).functionName = specFunctionName doc)
  ∧ specFunctionName [] = "DefaultWorkflow" := by
  constructor
  · intro st doc
    unfold parse
    rw [foldl_functionName]
    exact generateFunctionName_eq_spec doc
  · rfl

/-- C9: each extractor returns either nothing or a fully formed step: set
has non-empty target and value, assert has non-empty left, op and right and
the synthesized message, log has a non-empty message list, forEach has
non-empty source and loop variable. -/
theorem C9_no_partial_steps :
    (∀ (inputs : List (String × InputDecl)) (ts : List Token)
        (p : SetPayload), parseSetStep inputs ts = some p →
        p.target ≠ "" ∧ refNonEmpty p.value = true)
  ∧ (∀ (inputs : List (String × InputDecl)) (ts : List Token)
        (p : AssertPayload), parseAssertStep inputs ts = some p →
        refNonEmpty p.left = true ∧ p.op ≠ "" ∧ refNonEmpty p.right = true
          ∧ ∃ l o r, l ≠ "" ∧ o ≠ "" ∧ r ≠ ""
              ∧ p.message = l ++ " " ++ o ++ " " ++ r ++ " check failed")
  ∧ (∀ (inputs : List (String × InputDecl)) (ts : List Token)
        (p : LogPayload), parseLogStep inputs ts = some p → p.message ≠ [])
  ∧ (∀ (ts : List Token) (p : ForEachPayload), parseForEachStep ts = some p →
        p.source ≠ "" ∧ p.asVar ≠ "") := by
  refine ⟨?_, ?_, ?_, ?_⟩
  · intro inputs ts p hp
    unfold parseSetStep at hp
    split at hp
    · split at hp
      · next hguard =>
          simp only [Bool.and_eq_true, bne_iff_ne] at hguard
          injection hp with h
          rw [← h]
          exact ⟨hguard.1, refNonEmpty_resolveRef inputs _ hguard.2⟩
      · simp at hp
    · simp at hp
  · intro inputs ts p hp
    unfold parseAssertStep at hp
    split at hp
    · split at hp
      · next hguard =>
          simp only [Bool.and_eq_true, bne_iff_ne] at hguard
          injection hp with h
          rw [← h]
          exact ⟨refNonEmpty_resolveRef inputs _ hguard.1.1, hguard.1.2,
                 refNonEmpty_resolveRef inputs _ hguard.2,
                 _, _, _, hguard.1.1, hguard.1.2, hguard.2, rfl⟩
      · simp at hp
    · simp at hp
  · intro inputs ts p hp
    unfold parseLogStep at hp
    split at hp
    · simp at hp
    · injection hp with h
      have hmsg := congrArg LogPayload.message h
      rw [← hmsg]
      simp
  · intro ts p hp
    unfold parseForEachStep at hp
    split at hp
    · split at hp
      · next hguard =>
          simp only [Bool.and_eq_true, bne_iff_ne] at hguard
          injection hp with h
          rw [← h]
          exact ⟨hguard.1, hguard.2⟩
      · simp at hp
    · simp at hp

/-- C9 witness: fully formed steps at concrete extractions of all four
kinds. -/
theorem C9_witness :
    (SetPayload.target { target := "total", value := ValueRef.lit "amount" }
        ≠ ""
      ∧ refNonEmpty
          (SetPayload.value
            { target := "total", value := ValueRef.lit "amount" }) = true)
    ∧ (refNonEmpty
          (AssertPayload.left
            { left := ValueRef.lit "age", op := ">",
              right := ValueRef.lit "18",
              message := "age > 18 check failed" }) = true)
    ∧ (LogPayload.message
          { level := "info", message := [ValueRef.lit "message"] } ≠ [])
    ∧ (ForEachPayload.source
          { source := "perms", asVar := "item", body := [] } ≠ "") :=
  ⟨C9_no_partial_steps.1 [] c9SetToks
     { target := "total", value := ValueRef.lit "amount" } rfl,
   (C9_no_partial_steps.2.1 [] c9AssertToks
     { left := ValueRef.lit "age", op := ">", right := ValueRef.lit "18",
       message := "age > 18 check failed" } rfl).1,
   C9_no_partial_steps.2.2.1 [] c9LogToks
     { level := "info", message := [ValueRef.lit "message"] } rfl,
   (C9_no_partial_steps.2.2.2 c9EachToks
     { source := "perms", asVar := "item", body := [] } rfl).1⟩

/-- C10: parse never resets the instance state: the resulting steps list
extends the prior steps list, and every previously present input, context
and context-declaration key is still present, so a second parse on the same
state accumulates onto the first call's schema. -/
theorem C10_parse_accumulates :
    ∀ (st : ParserState) (doc : List Sentence),
      (∃ l, (parse st doc).steps = st.steps ++ l)
      ∧ keysIncluded st.inputs (parse st doc).inputs = true
      ∧ keysIncluded st.contextSpec (parse st doc).contextSpec = true
      ∧ keysIncluded st.context (parse st doc).context = true := by
  intro st doc
  refine ⟨foldl_steps doc _, ?_, ?_, ?_⟩
  · unfold keysIncluded
    rw [List.all_eq_true]
    intro p hp
    have h0 := dictContains_of_mem p st.inputs hp
    unfold parse
    rw [dictContains_foldl_inputs]
    simp [h0]
  · unfold keysIncluded
    rw [List.all_eq_true]
    intro p hp
    exact foldl_contextSpec_mono doc _ p.1
      (dictContains_of_mem p st.contextSpec hp)
  · unfold keysIncluded
    rw [List.all_eq_true]
    intro p hp
    exact foldl_context_mono doc _ p.1
      (dictContains_of_mem p st.context hp)

end TruthEngine
